import Mathlib

/-!
Shallow embedding of the CHIP-8 emulator core (chip8_core/src/lib.rs).

Machine integers are modelled as Nat with explicit `% 2 ^ w` where the source
uses wrapping operations.  Fixed-size arrays (ram, screen, v_reg, stack, keys)
are modelled as total functions from Nat; every claim that depends on an
in-bounds access carries the corresponding bound as a hypothesis.  Rust code
that can panic (stack overflow or underflow via index out of bounds /
arithmetic underflow, program images that do not fit in ram, unrecognized
opcodes) is modelled as returning `none`.  The random byte consumed by the
CXNN instruction is passed in as an explicit `rng` argument.
-/

namespace Chip8

/-- Pointwise update of a function modelling a fixed-size array. -/
def updf {α : Type} (f : Nat → α) (k : Nat) (v : α) : Nat → α :=
  fun i => if i = k then v else f i

abbrev SCREEN_WIDTH : Nat := 64

abbrev SCREEN_HEIGHT : Nat := 32

abbrev RAM_SIZE : Nat := 4096

abbrev STACK_SIZE : Nat := 16

abbrev NUM_KEYS : Nat := 16

abbrev START_ADDR : Nat := 0x200

abbrev FONTSET_SIZE : Nat := 80

/-- The fixed 80-byte glyph font (FONTSET in the source). -/
def FONTSET : List Nat := [
  0xF0, 0x90, 0x90, 0x90, 0xF0,
  0x20, 0x60, 0x20, 0x20, 0x70,
  0xF0, 0x10, 0xF0, 0x80, 0xF0,
  0xF0, 0x10, 0xF0, 0x10, 0xF0,
  0x90, 0x90, 0xF0, 0x10, 0x10,
  0xF0, 0x80, 0xF0, 0x10, 0xF0,
  0xF0, 0x80, 0xF0, 0x90, 0xF0,
  0xF0, 0x10, 0x20, 0x40, 0x40,
  0xF0, 0x90, 0xF0, 0x90, 0xF0,
  0xF0, 0x90, 0xF0, 0x10, 0xF0,
  0xF0, 0x90, 0xF0, 0x90, 0x90,
  0xE0, 0x90, 0xE0, 0x90, 0xE0,
  0xF0, 0x80, 0x80, 0x80, 0xF0,
  0xE0, 0x90, 0x90, 0x90, 0xE0,
  0xF0, 0x80, 0xF0, 0x80, 0xF0,
  0xF0, 0x80, 0xF0, 0x80, 0x80]

/-- The machine state (struct Emulator in the source). -/
structure Emulator where
  pc : Nat
  ram : Nat → Nat
  screen : Nat → Bool
  v_reg : Nat → Nat
  i_reg : Nat
  stack : Nat → Nat
  sp : Nat
  keys : Nat → Bool
  dt : Nat
  st : Nat
  draw_completed : Bool
  waiting_for_key_release : Option Nat

/-- Ram contents after zero fill followed by copying FONTSET to the base
(shared by Emulator::new and Emulator::reset). -/
def initRam : Nat → Nat :=
  fun i => if i < FONTSET_SIZE then FONTSET.getD i 0 else 0

/-- Emulator::new. -/
def Emulator.new : Emulator where
  pc := START_ADDR
  ram := initRam
  screen := fun _ => false
  v_reg := fun _ => 0
  i_reg := 0
  stack := fun _ => 0
  sp := 0
  keys := fun _ => false
  dt := 0
  st := 0
  draw_completed := true
  waiting_for_key_release := none

/-- Emulator::reset.  The source re-zeroes pc, ram, screen, v_reg, i_reg, sp,
stack, keys, dt and st and re-installs the font, but assigns neither
draw_completed nor waiting_for_key_release, so those two fields keep their
prior values. -/
def Emulator.reset (m : Emulator) : Emulator where
  pc := START_ADDR
  ram := initRam
  screen := fun _ => false
  v_reg := fun _ => 0
  i_reg := 0
  stack := fun _ => 0
  sp := 0
  keys := fun _ => false
  dt := 0
  st := 0
  draw_completed := m.draw_completed
  waiting_for_key_release := m.waiting_for_key_release

/-- Emulator::push.  The source writes stack[sp] and increments sp; when
sp is already STACK_SIZE the array index panics, modelled as `none`. -/
def Emulator.push (m : Emulator) (val : Nat) : Option Emulator :=
  if m.sp < STACK_SIZE then
    some { m with stack := updf m.stack m.sp val, sp := m.sp + 1 }
  else none

/-- Emulator::pop.  The source decrements sp and reads stack[sp]; when sp is 0
the u16 subtraction underflows (a panic), modelled as `none`. -/
def Emulator.pop (m : Emulator) : Option (Emulator × Nat) :=
  if m.sp = 0 then none
  else some ({ m with sp := m.sp - 1 }, m.stack (m.sp - 1))

/-- Emulator::keypress. -/
def Emulator.keypress (m : Emulator) (idx : Nat) (pressed : Bool) : Emulator :=
  let m1 : Emulator := { m with keys := updf m.keys idx pressed }
  if pressed = false ∧ some idx = m1.waiting_for_key_release then
    { m1 with waiting_for_key_release := none }
  else m1

/-- Emulator::load_rom.  Copies the byte sequence into ram starting at
START_ADDR; a sequence that does not fit panics in the source (slice index
out of range), modelled as `none`. -/
def Emulator.load_rom (m : Emulator) (data : List Nat) : Option Emulator :=
  if START_ADDR + data.length ≤ RAM_SIZE then
    some { m with ram := (fun i =>
      if START_ADDR ≤ i ∧ i < START_ADDR + data.length then
        data.getD (i - START_ADDR) 0
      else m.ram i) }
  else none

/-- Emulator::tick_timers. -/
def Emulator.tick_timers (m : Emulator) : Emulator :=
  { m with
    dt := if 0 < m.dt then m.dt - 1 else m.dt,
    st := if 0 < m.st then m.st - 1 else m.st }

/-- The key scanning loop of the FX0A arm: the first index in 0..NUM_KEYS whose
key is down, if any. -/
def firstPressedKey (keys : Nat → Bool) : Option Nat :=
  (List.range NUM_KEYS).find? fun i => keys i

/-- One pass of the inner (column) loop of the draw instruction: the sprite
bit for column x_line of the current row is tested, clipped at the right
edge, and toggles the framebuffer cell, accumulating the collision flag from
the cell value before the toggle. -/
def drawStep (pixels x_coord y : Nat) (acc : (Nat → Bool) × Bool) (x_line : Nat) :
    (Nat → Bool) × Bool :=
  if pixels &&& (128 >>> x_line) ≠ 0 then
    if SCREEN_WIDTH ≤ x_coord + x_line then acc
    else
      let idx := x_coord + x_line + SCREEN_WIDTH * y
      (updf acc.1 idx (!(acc.1 idx)), acc.2 || acc.1 idx)
  else acc

/-- The inner (column) loop of the draw instruction over the 8 sprite bits. -/
def drawRow (screen : Nat → Bool) (flipped : Bool) (pixels x_coord y : Nat) :
    (Nat → Bool) × Bool :=
  (List.range 8).foldl (drawStep pixels x_coord y) (screen, flipped)

/-- One pass of the outer (row) loop of the draw instruction: the row byte is
read from ram at i_reg + y_line, rows past the bottom edge are skipped. -/
def spriteStep (ram : Nat → Nat) (i_reg x_coord y_coord : Nat)
    (acc : (Nat → Bool) × Bool) (y_line : Nat) : (Nat → Bool) × Bool :=
  let pixels := ram (i_reg + y_line)
  let y := y_coord + y_line
  if SCREEN_HEIGHT ≤ y then acc
  else drawRow acc.1 acc.2 pixels x_coord y

/-- The draw loop of the 0xD arm: fold the row step over y_line in 0..num_rows
starting from the current screen with the collision flag false. -/
def drawSprite (ram : Nat → Nat) (i_reg x_coord y_coord num_rows : Nat)
    (screen : Nat → Bool) : (Nat → Bool) × Bool :=
  (List.range num_rows).foldl (spriteStep ram i_reg x_coord y_coord)
    (screen, false)

/-- Emulator::execute, with the four decoded nibbles passed explicitly.
The arms appear in source order; `none` models the panicking cases (stack
overflow and underflow, unrecognized opcode). -/
def Emulator.executeDigits (m : Emulator) (d1 d2 d3 d4 op rng : Nat) :
    Option Emulator :=
  if d1 = 0 ∧ d2 = 0 ∧ d3 = 0 ∧ d4 = 0 then
    some m
  else if d1 = 0 ∧ d2 = 0 ∧ d3 = 0xE ∧ d4 = 0 then
    some { m with screen := fun _ => false }
  else if d1 = 0 ∧ d2 = 0 ∧ d3 = 0xE ∧ d4 = 0xE then
    match m.pop with
    | some (m1, ret_addr) => some { m1 with pc := ret_addr }
    | none => none
  else if d1 = 1 then
    some { m with pc := op &&& 0xFFF }
  else if d1 = 2 then
    match m.push m.pc with
    | some m1 => some { m1 with pc := op &&& 0xFFF }
    | none => none
  else if d1 = 3 then
    some (if m.v_reg d2 = op &&& 0xFF then { m with pc := m.pc + 2 } else m)
  else if d1 = 4 then
    some (if m.v_reg d2 ≠ op &&& 0xFF then { m with pc := m.pc + 2 } else m)
  else if d1 = 5 ∧ d4 = 0 then
    some (if m.v_reg d2 = m.v_reg d3 then { m with pc := m.pc + 2 } else m)
  else if d1 = 6 then
    some { m with v_reg := updf m.v_reg d2 (op &&& 0xFF) }
  else if d1 = 7 then
    some { m with v_reg := updf m.v_reg d2 ((m.v_reg d2 + (op &&& 0xFF)) % 256) }
  else if d1 = 8 ∧ d4 = 0 then
    some { m with v_reg := updf m.v_reg d2 (m.v_reg d3) }
  else if d1 = 8 ∧ d4 = 1 then
    let v1 := updf m.v_reg 0xF 0
    some { m with v_reg := updf v1 d2 (v1 d2 ||| v1 d3) }
  else if d1 = 8 ∧ d4 = 2 then
    let v1 := updf m.v_reg 0xF 0
    some { m with v_reg := updf v1 d2 (v1 d2 &&& v1 d3) }
  else if d1 = 8 ∧ d4 = 3 then
    let v1 := updf m.v_reg 0xF 0
    some { m with v_reg := updf v1 d2 (v1 d2 ^^^ v1 d3) }
  else if d1 = 8 ∧ d4 = 4 then
    let sum := m.v_reg d2 + m.v_reg d3
    let new_vf := if 256 ≤ sum then 1 else 0
    some { m with v_reg := updf (updf m.v_reg d2 (sum % 256)) 0xF new_vf }
  else if d1 = 8 ∧ d4 = 5 then
    let new_vx := (m.v_reg d2 + 256 - m.v_reg d3) % 256
    let new_vf := if m.v_reg d2 < m.v_reg d3 then 0 else 1
    some { m with v_reg := updf (updf m.v_reg d2 new_vx) 0xF new_vf }
  else if d1 = 8 ∧ d4 = 6 then
    let lsb := m.v_reg d2 &&& 1
    some { m with v_reg := updf (updf m.v_reg d2 (m.v_reg d3 >>> 1)) 0xF lsb }
  else if d1 = 8 ∧ d4 = 7 then
    let new_vx := (m.v_reg d3 + 256 - m.v_reg d2) % 256
    let new_vf := if m.v_reg d3 < m.v_reg d2 then 0 else 1
    some { m with v_reg := updf (updf m.v_reg d2 new_vx) 0xF new_vf }
  else if d1 = 8 ∧ d4 = 0xE then
    let msb := (m.v_reg d3 >>> 7) &&& 1
    some { m with v_reg := updf (updf m.v_reg d2 ((m.v_reg d3 <<< 1) % 256)) 0xF msb }
  else if d1 = 9 ∧ d4 = 0 then
    some (if m.v_reg d2 ≠ m.v_reg d3 then { m with pc := m.pc + 2 } else m)
  else if d1 = 0xA then
    some { m with i_reg := op &&& 0xFFF }
  else if d1 = 0xB then
    some { m with pc := m.v_reg 0 + (op &&& 0xFFF) }
  else if d1 = 0xC then
    some { m with v_reg := updf m.v_reg d2 (rng &&& (op &&& 0xFF)) }
  else if d1 = 0xD then
    let x_coord := m.v_reg d2 % SCREEN_WIDTH
    let y_coord := m.v_reg d3 % SCREEN_HEIGHT
    let res := drawSprite m.ram m.i_reg x_coord y_coord d4 m.screen
    some { m with
      screen := res.1,
      v_reg := updf m.v_reg 0xF (if res.2 then 1 else 0),
      draw_completed := false }
  else if d1 = 0xE ∧ d3 = 9 ∧ d4 = 0xE then
    some (if m.keys (m.v_reg d2) then { m with pc := m.pc + 2 } else m)
  else if d1 = 0xE ∧ d3 = 0xA ∧ d4 = 1 then
    some (if !(m.keys (m.v_reg d2)) then { m with pc := m.pc + 2 } else m)
  else if d1 = 0xF ∧ d3 = 0 ∧ d4 = 7 then
    some { m with v_reg := updf m.v_reg d2 m.dt }
  else if d1 = 0xF ∧ d3 = 0 ∧ d4 = 0xA then
    match firstPressedKey m.keys with
    | some key_idx =>
        some { m with
          v_reg := updf m.v_reg d2 key_idx,
          waiting_for_key_release := some key_idx }
    | none => some { m with pc := m.pc - 2 }
  else if d1 = 0xF ∧ d3 = 1 ∧ d4 = 5 then
    some { m with dt := m.v_reg d2 }
  else if d1 = 0xF ∧ d3 = 1 ∧ d4 = 8 then
    some { m with st := m.v_reg d2 }
  else if d1 = 0xF ∧ d3 = 1 ∧ d4 = 0xE then
    some { m with i_reg := (m.i_reg + m.v_reg d2) % 65536 }
  else if d1 = 0xF ∧ d3 = 2 ∧ d4 = 9 then
    some { m with i_reg := m.v_reg d2 * 5 }
  else if d1 = 0xF ∧ d3 = 3 ∧ d4 = 3 then
    let vx := m.v_reg d2
    some { m with ram :=
      (updf (updf (updf m.ram m.i_reg (vx / 100)) (m.i_reg + 1) (vx % 100 / 10))
        (m.i_reg + 2) (vx % 10)) }
  else if d1 = 0xF ∧ d3 = 5 ∧ d4 = 5 then
    some { m with
      ram := ((List.range (d2 + 1)).foldl
        (fun r idx => updf r (m.i_reg + idx) (m.v_reg idx)) m.ram),
      i_reg := m.i_reg + (d2 + 1) }
  else if d1 = 0xF ∧ d3 = 6 ∧ d4 = 5 then
    some { m with
      v_reg := ((List.range (d2 + 1)).foldl
        (fun v idx => updf v idx (m.ram (m.i_reg + idx))) m.v_reg),
      i_reg := m.i_reg + (d2 + 1) }
  else none

/-- Emulator::execute: decode the four nibbles of the opcode exactly as the
source does and dispatch. -/
def Emulator.execute (m : Emulator) (op rng : Nat) : Option Emulator :=
  m.executeDigits ((op &&& 0xF000) >>> 12) ((op &&& 0x0F00) >>> 8)
    ((op &&& 0x00F0) >>> 4) (op &&& 0x000F) op rng

/-- Emulator::fetch: big-endian combine of the two bytes at pc, advancing pc
by 2.  Returns the opcode together with the advanced state. -/
def Emulator.fetch (m : Emulator) : Nat × Emulator :=
  ((m.ram m.pc <<< 8) ||| m.ram (m.pc + 1), { m with pc := m.pc + 2 })

/-- Emulator::tick: a no-op while the key-wait latch is set, otherwise fetch
then decode and execute. -/
def Emulator.tick (m : Emulator) (rng : Nat) : Option Emulator :=
  if m.waiting_for_key_release.isSome then some m
  else
    let fr := m.fetch
    fr.2.execute fr.1 rng

/-- Proof-side helper: toggle the listed framebuffer cells in order, keeping
the collision accumulator exactly as the draw loop does. -/
def toggleAll (ts : List Nat) (s : Nat → Bool) (f : Bool) : (Nat → Bool) × Bool :=
  ts.foldl (fun acc idx => (updf acc.1 idx (!(acc.1 idx)), acc.2 || acc.1 idx)) (s, f)

/-- Proof-side helper: the conversion of one sprite row byte into the list of
framebuffer cells it toggles (set bits only, clipped at the right edge). -/
def rowTargetFn (pixels x_coord y : Nat) (x_line : Nat) : Option Nat :=
  if pixels &&& (128 >>> x_line) ≠ 0 ∧ x_coord + x_line < SCREEN_WIDTH then
    some (x_coord + x_line + SCREEN_WIDTH * y)
  else none

/-- Proof-side helper: the cells a sprite row toggles. -/
def rowTargets (pixels x_coord y : Nat) : List Nat :=
  (List.range 8).filterMap (rowTargetFn pixels x_coord y)

/-- Proof-side helper: all cells toggled by an n-row sprite draw, in the order
the draw loop visits them (rows past the bottom edge contribute nothing). -/
def spriteTargets (ram : Nat → Nat) (i_reg x_coord y_coord : Nat) :
    Nat → List Nat
  | 0 => []
  | n + 1 =>
      spriteTargets ram i_reg x_coord y_coord n ++
        (if SCREEN_HEIGHT ≤ y_coord + n then []
         else rowTargets (ram (i_reg + n)) x_coord (y_coord + n))

/-- Concrete machine for the C2 counterexample: V0 = 4, all other registers 0. -/
def C2cex_m : Emulator :=
  { Emulator.new with v_reg := updf Emulator.new.v_reg 0 4 }

/-- Concrete machine for the C3 counterexample: a state whose draw_completed
flag is false and whose key-wait latch is set on key 3. -/
def C3cex_m : Emulator :=
  { Emulator.new with draw_completed := false, waiting_for_key_release := some 3 }

/-- Concrete machine for the C6 counterexample: VF = 10 and V0 = 10. -/
def C6cex_m : Emulator :=
  { Emulator.new with v_reg := updf (updf Emulator.new.v_reg 0 10) 0xF 10 }

/-- Concrete machine for the C6 witness: V0 = 250 and V1 = 10 (the
add-with-carry example of the specification). -/
def C6wit_m : Emulator :=
  { Emulator.new with v_reg := updf (updf Emulator.new.v_reg 0 250) 1 10 }

/-- Concrete machine for the C5 witness: the wait-for-key instruction
F,0,0,A stored at the program counter and key 7 held down. -/
def C5wit_m : Emulator :=
  { Emulator.new with
    ram := updf (updf Emulator.new.ram 0x200 0xF0) 0x201 0x0A,
    keys := updf Emulator.new.keys 7 true }

/-- Concrete machine for the C10 witness: keys 5 and 9 both held down. -/
def C10wit_m : Emulator :=
  { Emulator.new with keys := updf (updf Emulator.new.keys 5 true) 9 true }

theorem updf_same {α : Type} (f : Nat → α) (k : Nat) (v : α) : updf f k v k = v := by
  simp [updf]

theorem updf_ne {α : Type} (f : Nat → α) (k : Nat) (v : α) {i : Nat} (h : i ≠ k) :
    updf f k v i = f i := by
  simp [updf, h]

theorem and_shl_shiftRight (op m k : Nat) :
    (op &&& (m <<< k)) >>> k = (op >>> k) &&& m := by
  apply Nat.eq_of_testBit_eq
  intro i
  simp [Nat.testBit_shiftRight, Nat.testBit_and, Nat.testBit_shiftLeft,
    Nat.add_sub_cancel_left, Nat.le_add_right]

theorem and_mask15 (a : Nat) : a &&& 15 = a % 16 := by
  have h := Nat.and_pow_two_sub_one_eq_mod a 4
  norm_num at h
  exact h

theorem digit1_eq (op : Nat) : (op &&& 0xF000) >>> 12 = op / 4096 % 16 := by
  have h : (0xF000 : Nat) = 15 <<< 12 := by decide
  rw [h, and_shl_shiftRight, Nat.shiftRight_eq_div_pow, and_mask15]

theorem digit2_eq (op : Nat) : (op &&& 0x0F00) >>> 8 = op / 256 % 16 := by
  have h : (0x0F00 : Nat) = 15 <<< 8 := by decide
  rw [h, and_shl_shiftRight, Nat.shiftRight_eq_div_pow, and_mask15]

theorem digit3_eq (op : Nat) : (op &&& 0x00F0) >>> 4 = op / 16 % 16 := by
  have h : (0x00F0 : Nat) = 15 <<< 4 := by decide
  rw [h, and_shl_shiftRight, Nat.shiftRight_eq_div_pow, and_mask15]

theorem digit4_eq (op : Nat) : op &&& 0x000F = op % 16 := and_mask15 op

theorem nn_eq (op : Nat) : op &&& 0xFF = op % 256 := by
  have h := Nat.and_pow_two_sub_one_eq_mod op 8
  norm_num at h
  exact h

theorem nnn_eq (op : Nat) : op &&& 0xFFF = op % 4096 := by
  have h := Nat.and_pow_two_sub_one_eq_mod op 12
  norm_num at h
  exact h

theorem execute_encode (m : Emulator) (rng a x y z : Nat) (ha : a < 16)
    (hx : x < 16) (hy : y < 16) (hz : z < 16) :
    m.execute (a * 4096 + x * 256 + y * 16 + z) rng =
      m.executeDigits a x y z (a * 4096 + x * 256 + y * 16 + z) rng := by
  have h1 : ((a * 4096 + x * 256 + y * 16 + z) &&& 0xF000) >>> 12 = a := by
    rw [digit1_eq]; omega
  have h2 : ((a * 4096 + x * 256 + y * 16 + z) &&& 0x0F00) >>> 8 = x := by
    rw [digit2_eq]; omega
  have h3 : ((a * 4096 + x * 256 + y * 16 + z) &&& 0x00F0) >>> 4 = y := by
    rw [digit3_eq]; omega
  have h4 : ((a * 4096 + x * 256 + y * 16 + z) &&& 0x000F) = z := by
    rw [digit4_eq]; omega
  unfold Emulator.execute
  rw [h1, h2, h3, h4]

theorem execute_8xy6 (m : Emulator) (rng x y : Nat) (hx : x < 16) (hy : y < 16) :
    m.execute (8 * 4096 + x * 256 + y * 16 + 6) rng =
      some { m with v_reg :=
        (updf (updf m.v_reg x (m.v_reg y >>> 1)) 0xF (m.v_reg x &&& 1)) } := by
  rw [execute_encode m rng 8 x y 6 (by omega) hx hy (by omega)]
  simp only [Emulator.executeDigits]
  norm_num

theorem execute_8xy4 (m : Emulator) (rng x y : Nat) (hx : x < 16) (hy : y < 16) :
    m.execute (8 * 4096 + x * 256 + y * 16 + 4) rng =
      some { m with v_reg :=
        (updf (updf m.v_reg x ((m.v_reg x + m.v_reg y) % 256)) 0xF
          (if 256 ≤ m.v_reg x + m.v_reg y then 1 else 0)) } := by
  rw [execute_encode m rng 8 x y 4 (by omega) hx hy (by omega)]
  simp only [Emulator.executeDigits]
  norm_num

/-- C2 is false as stated at x = 15: on a machine with V0 = 4, instruction
8,F,0,6 leaves VF = 0 (the low bit of the old VF, written last), not
V0 shifted right one, which is 2. -/
theorem C2_counterexample :
    (C2cex_m.execute 0x8F06 0).map (fun m1 => m1.v_reg 0xF) = some 0 ∧
      C2cex_m.v_reg 0 >>> 1 = 2 :=
  ⟨rfl, rfl⟩

/-- C2 (amended): instruction 8,x,y,6 sets VF to the low bit of the
pre-instruction Vx regardless of Vy, and for x ≠ 15 sets Vx to the
pre-instruction Vy shifted right by one; when x = 15 the flag write is
performed last and overwrites the shift result, so VF ends as the low bit of
the pre-instruction VF.  All other registers are unchanged. -/
theorem C2_shift_right_amended (m : Emulator) (rng x y : Nat)
    (hx : x < 16) (hy : y < 16) :
    ∃ m1, m.execute (8 * 4096 + x * 256 + y * 16 + 6) rng = some m1 ∧
      m1.v_reg 0xF = m.v_reg x % 2 ∧
      (x ≠ 0xF → m1.v_reg x = m.v_reg y >>> 1) ∧
      (∀ i, i ≠ x → i ≠ 0xF → m1.v_reg i = m.v_reg i) := by
  refine ⟨_, execute_8xy6 m rng x y hx hy, ?_, ?_, ?_⟩
  · simp only [updf_same, Nat.and_one_is_mod]
  · intro hx15
    dsimp only
    rw [updf_ne _ _ _ hx15, updf_same]
  · intro i hix hi15
    dsimp only
    rw [updf_ne _ _ _ hi15, updf_ne _ _ _ hix]

/-- Witness for C2 (amended) at x = 0, y = 1 on the machine with V0 = 4. -/
theorem C2_shift_right_amended_witness :
    (0 : Nat) < 16 ∧ (1 : Nat) < 16 ∧
    (∃ m1, C2cex_m.execute (8 * 4096 + 0 * 256 + 1 * 16 + 6) 0 = some m1 ∧
      m1.v_reg 0xF = C2cex_m.v_reg 0 % 2 ∧
      ((0 : Nat) ≠ 0xF → m1.v_reg 0 = C2cex_m.v_reg 1 >>> 1) ∧
      (∀ i, i ≠ 0 → i ≠ 0xF → m1.v_reg i = C2cex_m.v_reg i)) :=
  ⟨by decide, by decide, C2_shift_right_amended C2cex_m 0 0 1 (by decide) (by decide)⟩

/-- C6 is false as stated at x = 15: on a machine with VF = 10 and V0 = 10,
instruction 8,F,0,4 leaves VF = 0 (the carry flag, written last), not the
sum 20. -/
theorem C6_counterexample :
    (C6cex_m.execute 0x8F04 0).map (fun m1 => m1.v_reg 0xF) = some 0 ∧
      (C6cex_m.v_reg 0xF + C6cex_m.v_reg 0) % 256 = 20 :=
  ⟨rfl, rfl⟩

/-- C6 (amended): instruction 8,x,y,4 sets VF to 1 when the 8-bit addition of
the pre-instruction Vx and Vy overflows and to 0 otherwise, and for x ≠ 15
sets Vx to the sum modulo 256; when x = 15 the flag write is performed last
and overwrites the sum.  All other registers are unchanged. -/
theorem C6_add_carry_amended (m : Emulator) (rng x y : Nat)
    (hx : x < 16) (hy : y < 16) :
    ∃ m1, m.execute (8 * 4096 + x * 256 + y * 16 + 4) rng = some m1 ∧
      m1.v_reg 0xF = (if 256 ≤ m.v_reg x + m.v_reg y then 1 else 0) ∧
      (x ≠ 0xF → m1.v_reg x = (m.v_reg x + m.v_reg y) % 256) ∧
      (∀ i, i ≠ x → i ≠ 0xF → m1.v_reg i = m.v_reg i) := by
  refine ⟨_, execute_8xy4 m rng x y hx hy, ?_, ?_, ?_⟩
  · simp only [updf_same]
  · intro hx15
    dsimp only
    rw [updf_ne _ _ _ hx15, updf_same]
  · intro i hix hi15
    dsimp only
    rw [updf_ne _ _ _ hi15, updf_ne _ _ _ hix]

/-- Witness for C6 (amended) at x = 0, y = 1 on the machine with V0 = 250 and
V1 = 10, together with the concrete evaluations of the specification example:
the result register holds 4 and the carry flag 1. -/
theorem C6_add_carry_amended_witness :
    (0 : Nat) < 16 ∧ (1 : Nat) < 16 ∧
    (C6wit_m.execute (8 * 4096 + 0 * 256 + 1 * 16 + 4) 0).map
      (fun m1 => m1.v_reg 0) = some 4 ∧
    (C6wit_m.execute (8 * 4096 + 0 * 256 + 1 * 16 + 4) 0).map
      (fun m1 => m1.v_reg 0xF) = some 1 ∧
    (∃ m1, C6wit_m.execute (8 * 4096 + 0 * 256 + 1 * 16 + 4) 0 = some m1 ∧
      m1.v_reg 0xF = (if 256 ≤ C6wit_m.v_reg 0 + C6wit_m.v_reg 1 then 1 else 0) ∧
      ((0 : Nat) ≠ 0xF → m1.v_reg 0 = (C6wit_m.v_reg 0 + C6wit_m.v_reg 1) % 256) ∧
      (∀ i, i ≠ 0 → i ≠ 0xF → m1.v_reg i = C6wit_m.v_reg i)) :=
  ⟨by decide, by decide, rfl, rfl,
    C6_add_carry_amended C6wit_m 0 0 1 (by decide) (by decide)⟩

/-- C3 is false as stated: reset does not restore draw_completed to true and
does not clear the key-wait latch.  On a machine whose draw_completed flag is
false and whose latch is set on key 3, both survive a reset, so reset is not
the constructed state. -/
theorem C3_counterexample :
    C3cex_m.reset.draw_completed = false ∧
      C3cex_m.reset.waiting_for_key_release = some 3 :=
  ⟨rfl, rfl⟩

/-- C3 (amended): reset re-zeroes memory (re-installing the font), registers,
index register, stack, stack pointer, keys, timers and framebuffer and sets
the program counter to 0x200, exactly as construction does, but it preserves
the prior draw_completed flag and the prior key-wait latch instead of
resetting them. -/
theorem C3_reset_amended (m : Emulator) :
    m.reset = { Emulator.new with
      draw_completed := m.draw_completed,
      waiting_for_key_release := m.waiting_for_key_release } :=
  rfl

/-- C4: while the key-wait latch is set on key k, a single step leaves the
whole machine state unchanged whatever instruction pc points at; the latch
survives any key press and the release of any key other than k, and is
cleared exactly by the release of key k. -/
theorem C4_keywait_latch (m : Emulator) (rng k idx : Nat)
    (hw : m.waiting_for_key_release = some k) (hik : idx ≠ k) :
    m.tick rng = some m ∧
    (m.keypress idx true).waiting_for_key_release = some k ∧
    (m.keypress k true).waiting_for_key_release = some k ∧
    (m.keypress idx false).waiting_for_key_release = some k ∧
    (m.keypress k false).waiting_for_key_release = none := by
  refine ⟨?_, ?_, ?_, ?_, ?_⟩
  · simp [Emulator.tick, hw]
  · simp [Emulator.keypress, hw]
  · simp [Emulator.keypress, hw]
  · simp [Emulator.keypress, hw, hik, Ne.symm hik]
  · simp [Emulator.keypress, hw]

/-- Witness for C4 at a concrete machine: latch set on key 3, other key 2. -/
theorem C4_keywait_latch_witness :
    ({ Emulator.new with waiting_for_key_release := some 3 } :
        Emulator).waiting_for_key_release = some 3 ∧ (2 : Nat) ≠ 3 ∧
    (({ Emulator.new with waiting_for_key_release := some 3 } :
        Emulator).tick 0 =
      some { Emulator.new with waiting_for_key_release := some 3 } ∧
    (({ Emulator.new with waiting_for_key_release := some 3 } :
        Emulator).keypress 2 true).waiting_for_key_release = some 3 ∧
    (({ Emulator.new with waiting_for_key_release := some 3 } :
        Emulator).keypress 3 true).waiting_for_key_release = some 3 ∧
    (({ Emulator.new with waiting_for_key_release := some 3 } :
        Emulator).keypress 2 false).waiting_for_key_release = some 3 ∧
    (({ Emulator.new with waiting_for_key_release := some 3 } :
        Emulator).keypress 3 false).waiting_for_key_release = none) :=
  ⟨rfl, by decide, C4_keywait_latch _ 0 3 2 rfl (by decide)⟩

/-- C9: loading a program of at most 3584 bytes succeeds (the out-of-bounds
branch is unreachable), writes exactly the bytes at 0x200 onward, and leaves
the rest of memory and every other component of the state unchanged. -/
theorem C9_load_rom (m : Emulator) (data : List Nat) (h : data.length ≤ 3584) :
    ∃ m1, m.load_rom data = some m1 ∧
      (∀ i, i < START_ADDR → m1.ram i = m.ram i) ∧
      (∀ i, START_ADDR + data.length ≤ i → m1.ram i = m.ram i) ∧
      (∀ k, k < data.length → m1.ram (START_ADDR + k) = data.getD k 0) ∧
      m1.pc = m.pc ∧ m1.screen = m.screen ∧ m1.v_reg = m.v_reg ∧
      m1.i_reg = m.i_reg ∧ m1.stack = m.stack ∧ m1.sp = m.sp ∧
      m1.keys = m.keys ∧ m1.dt = m.dt ∧ m1.st = m.st ∧
      m1.draw_completed = m.draw_completed ∧
      m1.waiting_for_key_release = m.waiting_for_key_release := by
  have hle : START_ADDR + data.length ≤ RAM_SIZE := by
    simp only [START_ADDR, RAM_SIZE]; omega
  unfold Emulator.load_rom
  rw [if_pos hle]
  refine ⟨_, rfl, ?_, ?_, ?_, rfl, rfl, rfl, rfl, rfl, rfl, rfl, rfl, rfl, rfl, rfl⟩
  · intro i hi
    simp only [START_ADDR] at hi ⊢
    rw [if_neg (by omega)]
  · intro i hi
    simp only [START_ADDR] at hi ⊢
    rw [if_neg (by omega)]
  · intro k hk
    simp only [START_ADDR] at hk ⊢
    rw [if_pos (by omega), Nat.add_sub_cancel_left]

/-- Witness for C9 at a concrete machine and program. -/
theorem C9_load_rom_witness :
    ([1, 2, 3] : List Nat).length ≤ 3584 ∧
    (∃ m1, Emulator.new.load_rom [1, 2, 3] = some m1 ∧
      (∀ i, i < START_ADDR → m1.ram i = Emulator.new.ram i) ∧
      (∀ i, START_ADDR + ([1, 2, 3] : List Nat).length ≤ i →
        m1.ram i = Emulator.new.ram i) ∧
      (∀ k, k < ([1, 2, 3] : List Nat).length →
        m1.ram (START_ADDR + k) = ([1, 2, 3] : List Nat).getD k 0) ∧
      m1.pc = Emulator.new.pc ∧ m1.screen = Emulator.new.screen ∧
      m1.v_reg = Emulator.new.v_reg ∧ m1.i_reg = Emulator.new.i_reg ∧
      m1.stack = Emulator.new.stack ∧ m1.sp = Emulator.new.sp ∧
      m1.keys = Emulator.new.keys ∧ m1.dt = Emulator.new.dt ∧
      m1.st = Emulator.new.st ∧
      m1.draw_completed = Emulator.new.draw_completed ∧
      m1.waiting_for_key_release = Emulator.new.waiting_for_key_release) :=
  ⟨by decide, C9_load_rom Emulator.new [1, 2, 3] (by decide)⟩

theorem execute_call (m : Emulator) (rng nnn : Nat) (h : nnn < 4096) :
    m.execute (2 * 4096 + nnn) rng =
      match m.push m.pc with
      | some m1 => some { m1 with pc := nnn }
      | none => none := by
  have h1 : ((2 * 4096 + nnn) &&& 0xF000) >>> 12 = 2 := by rw [digit1_eq]; omega
  have h5 : (2 * 4096 + nnn) &&& 0xFFF = nnn := by rw [nnn_eq]; omega
  unfold Emulator.execute
  rw [h1]
  simp only [Emulator.executeDigits]
  norm_num [h5]

/-- C8: a call with the 16-entry stack full, and a return with the stack
empty, are both fatal: execution halts (the source panics on the
out-of-bounds stack access) instead of wrapping the stack pointer or
touching an arbitrary slot. -/
theorem C8_stack_fatal (m1 m2 : Emulator) (rng nnn : Nat) (h : nnn < 4096)
    (hsp1 : m1.sp = 16) (hsp2 : m2.sp = 0) :
    m1.execute (2 * 4096 + nnn) rng = none ∧ m2.execute 0x00EE rng = none := by
  constructor
  · rw [execute_call m1 rng nnn h]
    simp [Emulator.push, hsp1]
  · have e : m2.execute 0x00EE rng = m2.executeDigits 0 0 0xE 0xE 0x00EE rng := rfl
    rw [e]
    simp only [Emulator.executeDigits]
    norm_num [Emulator.pop, hsp2]

/-- Witness for C8: a fresh machine with the stack pointer forced to 16 for
the call, and a fresh machine (stack pointer 0) for the return. -/
theorem C8_stack_fatal_witness :
    (0 : Nat) < 4096 ∧ ({ Emulator.new with sp := 16 } : Emulator).sp = 16 ∧
    Emulator.new.sp = 0 ∧
    (({ Emulator.new with sp := 16 } : Emulator).execute (2 * 4096 + 0) 0 = none ∧
      Emulator.new.execute 0x00EE 0 = none) :=
  ⟨by decide, rfl, rfl, C8_stack_fatal _ _ 0 0 (by decide) rfl rfl⟩

theorem execute_fx55 (m : Emulator) (rng x : Nat) (hx : x < 16) :
    m.execute (15 * 4096 + x * 256 + 5 * 16 + 5) rng =
      some { m with
        ram := ((List.range (x + 1)).foldl
          (fun r idx => updf r (m.i_reg + idx) (m.v_reg idx)) m.ram),
        i_reg := m.i_reg + (x + 1) } := by
  rw [execute_encode m rng 15 x 5 5 (by omega) hx (by omega) (by omega)]
  simp only [Emulator.executeDigits]
  norm_num

theorem execute_fx65 (m : Emulator) (rng x : Nat) (hx : x < 16) :
    m.execute (15 * 4096 + x * 256 + 6 * 16 + 5) rng =
      some { m with
        v_reg := ((List.range (x + 1)).foldl
          (fun v idx => updf v idx (m.ram (m.i_reg + idx))) m.v_reg),
        i_reg := m.i_reg + (x + 1) } := by
  rw [execute_encode m rng 15 x 6 5 (by omega) hx (by omega) (by omega)]
  simp only [Emulator.executeDigits]
  norm_num

theorem store_foldl_hit (v r : Nat → Nat) (base : Nat) :
    ∀ (cnt idx : Nat), idx < cnt →
      ((List.range cnt).foldl (fun r2 k => updf r2 (base + k) (v k)) r)
        (base + idx) = v idx := by
  intro cnt
  induction cnt with
  | zero => intro idx h; omega
  | succ n ih =>
      intro idx h
      rw [List.range_succ, List.foldl_append, List.foldl_cons, List.foldl_nil]
      by_cases hidx : idx = n
      · subst hidx
        rw [updf_same]
      · rw [updf_ne _ _ _ (by omega : base + idx ≠ base + n)]
        exact ih idx (by omega)

theorem store_foldl_miss (v r : Nat → Nat) (base : Nat) :
    ∀ (cnt a : Nat), (∀ k, k < cnt → a ≠ base + k) →
      ((List.range cnt).foldl (fun r2 k => updf r2 (base + k) (v k)) r) a = r a := by
  intro cnt
  induction cnt with
  | zero => intro a _; rfl
  | succ n ih =>
      intro a h
      rw [List.range_succ, List.foldl_append, List.foldl_cons, List.foldl_nil]
      rw [updf_ne _ _ _ (h n (by omega))]
      exact ih a (fun k hk => h k (by omega))

theorem load_foldl_hit (g v : Nat → Nat) :
    ∀ (cnt j : Nat), j < cnt →
      ((List.range cnt).foldl (fun v2 k => updf v2 k (g k)) v) j = g j := by
  intro cnt
  induction cnt with
  | zero => intro j h; omega
  | succ n ih =>
      intro j h
      rw [List.range_succ, List.foldl_append, List.foldl_cons, List.foldl_nil]
      by_cases hj : j = n
      · subst hj
        rw [updf_same]
      · rw [updf_ne _ _ _ hj]
        exact ih j (by omega)

theorem load_foldl_miss (g v : Nat → Nat) :
    ∀ (cnt j : Nat), cnt ≤ j →
      ((List.range cnt).foldl (fun v2 k => updf v2 k (g k)) v) j = v j := by
  intro cnt
  induction cnt with
  | zero => intro j _; rfl
  | succ n ih =>
      intro j h
      rw [List.range_succ, List.foldl_append, List.foldl_cons, List.foldl_nil]
      rw [updf_ne _ _ _ (by omega : j ≠ n)]
      exact ih j (by omega)

/-- C7: storing V0..Vx at I (F,x,5,5) writes those registers into memory,
advances I by x+1, and, after I is restored to the original base, loading
(F,x,6,5) advances I by x+1 again and leaves every register exactly as it
was before the store. -/
theorem C7_store_load_roundtrip (m : Emulator) (rng x : Nat) (hx : x < 16)
    (hI : m.i_reg + x + 1 ≤ 4096) :
    ∃ m1, m.execute (15 * 4096 + x * 256 + 5 * 16 + 5) rng = some m1 ∧
      m1.i_reg = m.i_reg + (x + 1) ∧
      (∀ idx, idx ≤ x → m1.ram (m.i_reg + idx) = m.v_reg idx) ∧
      ∃ m2, ({ m1 with i_reg := m.i_reg } : Emulator).execute
          (15 * 4096 + x * 256 + 6 * 16 + 5) rng = some m2 ∧
        m2.i_reg = m.i_reg + (x + 1) ∧
        (∀ i, m2.v_reg i = m.v_reg i) := by
  refine ⟨_, execute_fx55 m rng x hx, rfl, ?_, ?_⟩
  · intro idx hidx
    exact store_foldl_hit m.v_reg m.ram m.i_reg (x + 1) idx (by omega)
  · refine ⟨_, execute_fx65 _ rng x hx, rfl, ?_⟩
    intro i
    dsimp only
    by_cases hi : i ≤ x
    · rw [load_foldl_hit _ _ (x + 1) i (by omega)]
      exact store_foldl_hit m.v_reg m.ram m.i_reg (x + 1) i (by omega)
    · exact load_foldl_miss _ _ (x + 1) i (by omega)

/-- Witness for C7 on a fresh machine with x = 2. -/
theorem C7_store_load_roundtrip_witness :
    (2 : Nat) < 16 ∧ Emulator.new.i_reg + 2 + 1 ≤ 4096 ∧
    (∃ m1, Emulator.new.execute (15 * 4096 + 2 * 256 + 5 * 16 + 5) 0 = some m1 ∧
      m1.i_reg = Emulator.new.i_reg + (2 + 1) ∧
      (∀ idx, idx ≤ 2 → m1.ram (Emulator.new.i_reg + idx) = Emulator.new.v_reg idx) ∧
      ∃ m2, ({ m1 with i_reg := Emulator.new.i_reg } : Emulator).execute
          (15 * 4096 + 2 * 256 + 6 * 16 + 5) 0 = some m2 ∧
        m2.i_reg = Emulator.new.i_reg + (2 + 1) ∧
        (∀ i, m2.v_reg i = Emulator.new.v_reg i)) :=
  ⟨by decide, by decide, C7_store_load_roundtrip Emulator.new 0 2 (by decide) (by decide)⟩

theorem execute_fx0a (m : Emulator) (rng x : Nat) (hx : x < 16) :
    m.execute (15 * 4096 + x * 256 + 0 * 16 + 10) rng =
      match firstPressedKey m.keys with
      | some key_idx =>
          some { m with
            v_reg := updf m.v_reg x key_idx,
            waiting_for_key_release := some key_idx }
      | none => some { m with pc := m.pc - 2 } := by
  rw [execute_encode m rng 15 x 0 10 (by omega) hx (by omega) (by omega)]
  simp only [Emulator.executeDigits]
  norm_num

theorem find?_range_eq_some (p : Nat → Bool) (k : Nat) :
    ∀ n, k < n → p k = true → (∀ j, j < k → p j = false) →
      (List.range n).find? p = some k := by
  intro n
  induction n with
  | zero => intro hk; omega
  | succ n ih =>
      intro hk hp hmin
      rw [List.range_succ, List.find?_append]
      by_cases hkn : k = n
      · subst hkn
        have hnone : (List.range k).find? p = none := by
          rw [List.find?_eq_none]
          intro j hj
          rw [List.mem_range] at hj
          simp [hmin j hj]
        rw [hnone]
        simp [List.find?, hp]
      · rw [ih (by omega) hp hmin]
        rfl

/-- C10: when the wait-for-key instruction F,x,0,A executes with at least one
key down, the key stored into Vx and latched for release is the pressed key
with the smallest index: the source scans keys 0..15 in order and takes the
first pressed one, so the choice is deterministic even with several keys
down. -/
theorem C10_least_pressed_key (m : Emulator) (rng x k : Nat) (hx : x < 16)
    (hk : k < 16) (hdown : m.keys k = true)
    (hleast : ∀ j, j < k → m.keys j = false) :
    m.execute (15 * 4096 + x * 256 + 0 * 16 + 10) rng =
      some { m with
        v_reg := updf m.v_reg x k,
        waiting_for_key_release := some k } := by
  rw [execute_fx0a m rng x hx]
  have hfp : firstPressedKey m.keys = some k :=
    find?_range_eq_some (fun i => m.keys i) k 16 hk hdown hleast
  rw [hfp]

/-- Witness for C10: keys 5 and 9 down, instruction F,2,0,A; key 5 is chosen. -/
theorem C10_least_pressed_key_witness :
    (2 : Nat) < 16 ∧ (5 : Nat) < 16 ∧ C10wit_m.keys 5 = true ∧
    (∀ j, j < 5 → C10wit_m.keys j = false) ∧
    C10wit_m.execute (15 * 4096 + 2 * 256 + 0 * 16 + 10) 0 =
      some { C10wit_m with
        v_reg := updf C10wit_m.v_reg 2 5,
        waiting_for_key_release := some 5 } :=
  ⟨by decide, by decide, rfl, by decide,
    C10_least_pressed_key C10wit_m 0 2 5 (by decide) (by decide) rfl (by decide)⟩

/-- C5: with the latch clear and F,x,0,A at the program counter, a step with
no key down leaves the machine (in particular the program counter) exactly
unchanged: the fetch advances pc by 2 and the instruction rewinds it by 2.
With k the lowest key down, a step stores k into Vx, engages the key-wait
latch on k, and leaves pc advanced by the fetch only. -/
theorem C5_wait_for_key (m : Emulator) (rng x : Nat) (hx : x < 16)
    (hw : m.waiting_for_key_release = none)
    (hb1 : m.ram m.pc = 0xF0 + x) (hb2 : m.ram (m.pc + 1) = 0x0A) :
    ((∀ i, i < 16 → m.keys i = false) → m.tick rng = some m) ∧
    (∀ k, k < 16 → m.keys k = true → (∀ j, j < k → m.keys j = false) →
      m.tick rng = some { m with
        pc := m.pc + 2,
        v_reg := updf m.v_reg x k,
        waiting_for_key_release := some k }) := by
  have hop : m.ram m.pc <<< 8 ||| m.ram (m.pc + 1) =
      15 * 4096 + x * 256 + 0 * 16 + 10 := by
    rw [hb1, hb2]
    have h1 : (0xF0 + x) <<< 8 = 2 ^ 8 * (0xF0 + x) := by
      rw [Nat.shiftLeft_eq]; ring
    rw [h1, ← Nat.mul_add_lt_is_or (by norm_num : (0x0A : Nat) < 2 ^ 8)]
    ring
  have ht : m.tick rng =
      ({ m with pc := m.pc + 2 } : Emulator).execute
        (15 * 4096 + x * 256 + 0 * 16 + 10) rng := by
    simp only [Emulator.tick, Emulator.fetch, hw, Option.isSome_none,
      Bool.false_eq_true, if_false, hop]
  constructor
  · intro hnokey
    have hfp : firstPressedKey m.keys = none := by
      unfold firstPressedKey
      rw [List.find?_eq_none]
      intro j hj
      rw [List.mem_range] at hj
      simp [hnokey j hj]
    rw [ht, execute_fx0a _ rng x hx]
    dsimp only
    rw [hfp]
    have hpc : m.pc + 2 - 2 = m.pc := by omega
    rw [hpc]
  · intro k hk hkd hleast
    have hfp : firstPressedKey m.keys = some k :=
      find?_range_eq_some (fun i => m.keys i) k 16 hk hkd hleast
    rw [ht, execute_fx0a _ rng x hx]
    dsimp only
    rw [hfp]

/-- Witness for C5 on a machine with F,0,0,A at the program counter and key 7
held down. -/
theorem C5_wait_for_key_witness :
    (0 : Nat) < 16 ∧ C5wit_m.waiting_for_key_release = none ∧
    C5wit_m.ram C5wit_m.pc = 0xF0 + 0 ∧ C5wit_m.ram (C5wit_m.pc + 1) = 0x0A ∧
    (((∀ i, i < 16 → C5wit_m.keys i = false) → C5wit_m.tick 0 = some C5wit_m) ∧
    (∀ k, k < 16 → C5wit_m.keys k = true → (∀ j, j < k → C5wit_m.keys j = false) →
      C5wit_m.tick 0 = some { C5wit_m with
        pc := C5wit_m.pc + 2,
        v_reg := updf C5wit_m.v_reg 0 k,
        waiting_for_key_release := some k })) :=
  ⟨by decide, rfl, rfl, rfl,
    C5_wait_for_key C5wit_m 0 0 (by decide) rfl rfl rfl⟩

theorem toggleAll_cons (t : Nat) (ts : List Nat) (s : Nat → Bool) (f : Bool) :
    toggleAll (t :: ts) s f = toggleAll ts (updf s t (!(s t))) (f || s t) :=
  rfl

theorem toggleAll_append (ts us : List Nat) (s : Nat → Bool) (f : Bool) :
    toggleAll (ts ++ us) s f =
      toggleAll us (toggleAll ts s f).1 (toggleAll ts s f).2 := by
  unfold toggleAll
  rw [List.foldl_append]

theorem toggleAll_fst (j : Nat) :
    ∀ (ts : List Nat) (s : Nat → Bool) (f : Bool),
      (toggleAll ts s f).1 j = ((s j).xor (decide (ts.count j % 2 = 1))) := by
  intro ts
  induction ts with
  | nil => intro s f; simp [toggleAll]
  | cons t ts ih =>
      intro s f
      rw [toggleAll_cons, ih]
      by_cases hjt : j = t
      · subst hjt
        rw [updf_same, List.count_cons]
        simp only [beq_self_eq_true, if_true]
        rcases Nat.mod_two_eq_zero_or_one (ts.count j) with h | h
        · have h2 : (ts.count j + 1) % 2 = 1 := by omega
          simp [h, h2]
        · have h2 : (ts.count j + 1) % 2 = 0 := by omega
          simp [h, h2]
      · rw [updf_ne _ _ _ hjt, List.count_cons]
        have hne : (t == j) = false := by
          simp [Ne.symm hjt]
        simp [hne]

theorem toggleAll_fst_nodup {ts : List Nat} (h : ts.Nodup) (s : Nat → Bool)
    (f : Bool) (j : Nat) :
    (toggleAll ts s f).1 j = if j ∈ ts then !(s j) else s j := by
  rw [toggleAll_fst]
  by_cases hj : j ∈ ts
  · rw [List.count_eq_one_of_mem h hj]
    simp [hj]
  · rw [List.count_eq_zero.mpr hj]
    simp [hj]

theorem any_updf_ne (s : Nat → Bool) (v : Bool) (t : Nat) :
    ∀ ts : List Nat, t ∉ ts →
      (ts.any fun j => updf s t v j) = ts.any fun j => s j := by
  intro ts
  induction ts with
  | nil => intro _; rfl
  | cons a l ih =>
      intro h
      rw [List.mem_cons] at h
      push_neg at h
      rw [List.any_cons, List.any_cons, updf_ne _ _ _ (Ne.symm h.1), ih h.2]

theorem toggleAll_snd :
    ∀ (ts : List Nat) (s : Nat → Bool) (f : Bool), ts.Nodup →
      (toggleAll ts s f).2 = (f || ts.any fun j => s j) := by
  intro ts
  induction ts with
  | nil => intro s f _; simp [toggleAll]
  | cons t l ih =>
      intro s f hnd
      rw [List.nodup_cons] at hnd
      rw [toggleAll_cons, ih _ _ hnd.2, any_updf_ne s _ t l hnd.1, List.any_cons,
        Bool.or_assoc]

theorem mem_rowTargets {e pixels x_coord y : Nat} :
    e ∈ rowTargets pixels x_coord y ↔
      ∃ xl, xl < 8 ∧ pixels &&& (128 >>> xl) ≠ 0 ∧ x_coord + xl < 64 ∧
        e = x_coord + xl + 64 * y := by
  unfold rowTargets rowTargetFn
  simp only [List.mem_filterMap, List.mem_range, Option.ite_none_right_eq_some,
    Option.some.injEq]
  constructor
  · rintro ⟨xl, hxl, ⟨hbit, hlt⟩, heq⟩
    exact ⟨xl, hxl, hbit, hlt, heq.symm⟩
  · rintro ⟨xl, hxl, hbit, hlt, heq⟩
    exact ⟨xl, hxl, ⟨hbit, hlt⟩, heq.symm⟩

theorem mem_spriteTargets {ram : Nat → Nat} {i_reg x_coord y_coord e : Nat} :
    ∀ {n : Nat}, e ∈ spriteTargets ram i_reg x_coord y_coord n ↔
      ∃ yl, yl < n ∧ y_coord + yl < 32 ∧
        e ∈ rowTargets (ram (i_reg + yl)) x_coord (y_coord + yl) := by
  intro n
  induction n with
  | zero => simp [spriteTargets]
  | succ n ih =>
      simp only [spriteTargets, List.mem_append, ih]
      by_cases hy : SCREEN_HEIGHT ≤ y_coord + n
      · have hy2 : 32 ≤ y_coord + n := hy
        rw [if_pos hy]
        simp only [List.not_mem_nil, or_false]
        constructor
        · rintro ⟨yl, h1, h2, h3⟩
          exact ⟨yl, by omega, h2, h3⟩
        · rintro ⟨yl, h1, h2, h3⟩
          refine ⟨yl, ?_, h2, h3⟩
          by_cases hyn : yl = n
          · subst hyn; omega
          · omega
      · have hy2 : ¬(32 ≤ y_coord + n) := hy
        rw [if_neg hy]
        constructor
        · rintro (⟨yl, h1, h2, h3⟩ | hrow)
          · exact ⟨yl, by omega, h2, h3⟩
          · exact ⟨n, by omega, by omega, hrow⟩
        · rintro ⟨yl, h1, h2, h3⟩
          by_cases hyn : yl = n
          · subst hyn; right; exact h3
          · left; exact ⟨yl, by omega, h2, h3⟩

theorem nodup_rowTargets (pixels x_coord y : Nat) :
    (rowTargets pixels x_coord y).Nodup := by
  unfold rowTargets
  refine List.Nodup.filterMap ?_ (List.nodup_range 8)
  intro a a2 b hb1 hb2
  simp only [rowTargetFn, Option.mem_def, Option.ite_none_right_eq_some,
    Option.some.injEq] at hb1 hb2
  rcases hb1 with ⟨⟨_, _⟩, e1⟩
  rcases hb2 with ⟨⟨_, _⟩, e2⟩
  omega

theorem nodup_spriteTargets (ram : Nat → Nat) (i_reg x_coord y_coord : Nat) :
    ∀ n, (spriteTargets ram i_reg x_coord y_coord n).Nodup := by
  intro n
  induction n with
  | zero => simp [spriteTargets]
  | succ n ih =>
      simp only [spriteTargets]
      by_cases hy : SCREEN_HEIGHT ≤ y_coord + n
      · rw [if_pos hy, List.append_nil]
        exact ih
      · rw [if_neg hy]
        refine ih.append (nodup_rowTargets _ _ _) ?_
        intro e he1 he2
        rw [mem_spriteTargets] at he1
        obtain ⟨yl, hyl, hylt, hrow⟩ := he1
        rw [mem_rowTargets] at hrow he2
        obtain ⟨xl, hxl8, _, hxlt, he⟩ := hrow
        obtain ⟨xl2, hxl28, _, hxl2t, hee⟩ := he2
        omega

theorem foldl_drawStep_eq (pixels x_coord y : Nat) :
    ∀ (l : List Nat) (s : Nat → Bool) (f : Bool),
      l.foldl (drawStep pixels x_coord y) (s, f) =
        toggleAll (l.filterMap (rowTargetFn pixels x_coord y)) s f := by
  intro l
  induction l with
  | nil => intro s f; rfl
  | cons a l ih =>
      intro s f
      rw [List.foldl_cons]
      by_cases hbit : pixels &&& (128 >>> a) ≠ 0
      · by_cases hxb : SCREEN_WIDTH ≤ x_coord + a
        · have hxb2 : 64 ≤ x_coord + a := hxb
          have hstep : drawStep pixels x_coord y (s, f) a = (s, f) := by
            simp [drawStep, hbit, hxb]
          have hfn : rowTargetFn pixels x_coord y a = none := by
            simp only [rowTargetFn]
            rw [if_neg (by rintro ⟨h1, h2⟩; omega)]
          rw [hstep, List.filterMap_cons_none hfn, ih]
        · have hxb2 : ¬(64 ≤ x_coord + a) := hxb
          have hstep : drawStep pixels x_coord y (s, f) a =
              (updf s (x_coord + a + SCREEN_WIDTH * y)
                  (!(s (x_coord + a + SCREEN_WIDTH * y))),
                f || s (x_coord + a + SCREEN_WIDTH * y)) := by
            simp [drawStep, hbit, hxb]
          have hfn : rowTargetFn pixels x_coord y a =
              some (x_coord + a + SCREEN_WIDTH * y) := by
            simp only [rowTargetFn]
            rw [if_pos ⟨hbit, by omega⟩]
          rw [hstep, List.filterMap_cons_some hfn, ih]
          rfl
      · have hstep : drawStep pixels x_coord y (s, f) a = (s, f) := by
          simp [drawStep, hbit]
        have hfn : rowTargetFn pixels x_coord y a = none := by
          simp only [rowTargetFn]
          rw [if_neg (by rintro ⟨h1, _⟩; exact hbit h1)]
        rw [hstep, List.filterMap_cons_none hfn, ih]

theorem drawRow_eq (s : Nat → Bool) (f : Bool) (pixels x_coord y : Nat) :
    drawRow s f pixels x_coord y = toggleAll (rowTargets pixels x_coord y) s f :=
  foldl_drawStep_eq pixels x_coord y (List.range 8) s f

theorem drawSprite_eq (ram : Nat → Nat) (i_reg x_coord y_coord : Nat) :
    ∀ (n : Nat) (s : Nat → Bool),
      drawSprite ram i_reg x_coord y_coord n s =
        toggleAll (spriteTargets ram i_reg x_coord y_coord n) s false := by
  intro n
  induction n with
  | zero => intro s; rfl
  | succ n ih =>
      intro s
      show (List.range (n + 1)).foldl (spriteStep ram i_reg x_coord y_coord)
        (s, false) = _
      rw [List.range_succ, List.foldl_append, List.foldl_cons, List.foldl_nil]
      have hfold : (List.range n).foldl (spriteStep ram i_reg x_coord y_coord)
          (s, false) =
          toggleAll (spriteTargets ram i_reg x_coord y_coord n) s false := ih s
      rw [hfold]
      simp only [spriteStep, spriteTargets]
      by_cases hy : SCREEN_HEIGHT ≤ y_coord + n
      · rw [if_pos hy, if_pos hy, List.append_nil]
      · rw [if_neg hy, if_neg hy, toggleAll_append, drawRow_eq]

theorem drawSprite_fst (ram : Nat → Nat) (i_reg x_coord y_coord n : Nat)
    (s : Nat → Bool) (j : Nat) :
    (drawSprite ram i_reg x_coord y_coord n s).1 j =
      if j ∈ spriteTargets ram i_reg x_coord y_coord n then !(s j) else s j := by
  rw [drawSprite_eq]
  exact toggleAll_fst_nodup (nodup_spriteTargets ram i_reg x_coord y_coord n) s false j

theorem drawSprite_snd (ram : Nat → Nat) (i_reg x_coord y_coord n : Nat)
    (s : Nat → Bool) :
    (drawSprite ram i_reg x_coord y_coord n s).2 =
      (spriteTargets ram i_reg x_coord y_coord n).any fun j => s j := by
  rw [drawSprite_eq,
    toggleAll_snd _ _ _ (nodup_spriteTargets ram i_reg x_coord y_coord n),
    Bool.false_or]

theorem execute_dxyn (m : Emulator) (rng x y n : Nat) (hx : x < 16)
    (hy : y < 16) (hn : n < 16) :
    m.execute (13 * 4096 + x * 256 + y * 16 + n) rng =
      some { m with
        screen :=
          (drawSprite m.ram m.i_reg (m.v_reg x % 64) (m.v_reg y % 32) n m.screen).1,
        v_reg := (updf m.v_reg 0xF
          (if (drawSprite m.ram m.i_reg (m.v_reg x % 64) (m.v_reg y % 32) n
              m.screen).2
           then 1 else 0)),
        draw_completed := false } := by
  rw [execute_encode m rng 13 x y n (by omega) hx hy hn]
  simp only [Emulator.executeDigits]
  norm_num

/-- C1: the draw instruction D,x,y,n reads its sprite rows from memory at
I..I+n, composites them starting at (Vx mod 64, Vy mod 32), XOR-toggles
exactly the framebuffer cells under set sprite bits, clips (does not wrap)
columns past the right edge and rows past the bottom edge, sets VF to 1
exactly when a toggled cell was set before the toggle and to 0 otherwise,
and clears the draw-completed flag.  Consequently (for x, y other than the
flag register itself, so that the coordinates are unchanged) drawing the
same sprite again restores every cell, and the second draw reports VF = 1
whenever the first draw toggled at least one cell on. -/
theorem C1_draw_sprite (m : Emulator) (rng x y n : Nat)
    (hx : x < 16) (hy : y < 16) (hn : n < 16) (hI : m.i_reg + n ≤ 4096) :
    ∃ m1, m.execute (13 * 4096 + x * 256 + y * 16 + n) rng = some m1 ∧
      (∀ j, m1.screen j =
        if j ∈ spriteTargets m.ram m.i_reg (m.v_reg x % 64) (m.v_reg y % 32) n
        then !(m.screen j) else m.screen j) ∧
      (∀ e, e ∈ spriteTargets m.ram m.i_reg (m.v_reg x % 64) (m.v_reg y % 32) n ↔
        ∃ yl, yl < n ∧ m.v_reg y % 32 + yl < 32 ∧
          ∃ xl, xl < 8 ∧ m.ram (m.i_reg + yl) &&& (128 >>> xl) ≠ 0 ∧
            m.v_reg x % 64 + xl < 64 ∧
            e = m.v_reg x % 64 + xl + 64 * (m.v_reg y % 32 + yl)) ∧
      (m1.v_reg 0xF = 1 ↔
        ∃ e ∈ spriteTargets m.ram m.i_reg (m.v_reg x % 64) (m.v_reg y % 32) n,
          m.screen e = true) ∧
      (m1.v_reg 0xF = 0 ∨ m1.v_reg 0xF = 1) ∧
      m1.draw_completed = false ∧
      (x ≠ 0xF → y ≠ 0xF →
        ∃ m2, m1.execute (13 * 4096 + x * 256 + y * 16 + n) rng = some m2 ∧
          (∀ j, m2.screen j = m.screen j) ∧
          ((∃ e ∈ spriteTargets m.ram m.i_reg (m.v_reg x % 64) (m.v_reg y % 32) n,
              m.screen e = false) → m2.v_reg 0xF = 1)) := by
  refine ⟨_, execute_dxyn m rng x y n hx hy hn, ?_, ?_, ?_, ?_, rfl, ?_⟩
  · intro j
    dsimp only
    exact drawSprite_fst m.ram m.i_reg (m.v_reg x % 64) (m.v_reg y % 32) n m.screen j
  · intro e
    rw [mem_spriteTargets]
    apply exists_congr
    intro yl
    refine and_congr_right fun _ => and_congr_right fun _ => ?_
    exact mem_rowTargets
  · dsimp only
    rw [updf_same, drawSprite_snd]
    constructor
    · intro h1
      have hany : ((spriteTargets m.ram m.i_reg (m.v_reg x % 64) (m.v_reg y % 32)
          n).any fun j => m.screen j) = true := by
        by_contra hc
        rw [Bool.not_eq_true] at hc
        rw [hc] at h1
        simp at h1
      rw [List.any_eq_true] at hany
      obtain ⟨e, he, hse⟩ := hany
      exact ⟨e, he, hse⟩
    · rintro ⟨e, he, hse⟩
      have hany : ((spriteTargets m.ram m.i_reg (m.v_reg x % 64) (m.v_reg y % 32)
          n).any fun j => m.screen j) = true :=
        List.any_eq_true.mpr ⟨e, he, hse⟩
      rw [hany]
      rfl
  · dsimp only
    rw [updf_same]
    cases hb : (drawSprite m.ram m.i_reg (m.v_reg x % 64) (m.v_reg y % 32) n
        m.screen).2 with
    | false => left; rw [if_neg (by simp [hb])]
    | true => right; rw [if_pos (by simp [hb])]
  · intro hx15 hy15
    refine ⟨_, execute_dxyn _ rng x y n hx hy hn, ?_, ?_⟩
    · intro j
      dsimp only
      rw [updf_ne _ _ _ hx15, updf_ne _ _ _ hy15]
      simp only [drawSprite_fst]
      by_cases hj : j ∈ spriteTargets m.ram m.i_reg (m.v_reg x % 64)
          (m.v_reg y % 32) n
      · simp [hj]
      · simp [hj]
    · rintro ⟨e, he, hse⟩
      dsimp only
      rw [updf_ne _ _ _ hx15, updf_ne _ _ _ hy15, updf_same, drawSprite_snd]
      have hany : ((spriteTargets m.ram m.i_reg (m.v_reg x % 64) (m.v_reg y % 32)
          n).any fun j =>
            (drawSprite m.ram m.i_reg (m.v_reg x % 64) (m.v_reg y % 32) n
              m.screen).1 j) = true := by
        rw [List.any_eq_true]
        refine ⟨e, he, ?_⟩
        rw [drawSprite_fst, if_pos he, hse]
        rfl
      rw [hany]
      rfl

/-- Witness for C1 on a fresh machine: draw the one-row sprite at I = 0 (the
first font byte) with coordinates taken from V0 and V1. -/
theorem C1_draw_sprite_witness :
    (0 : Nat) < 16 ∧ (1 : Nat) < 16 ∧ (1 : Nat) < 16 ∧
    Emulator.new.i_reg + 1 ≤ 4096 ∧
    (∃ m1, Emulator.new.execute (13 * 4096 + 0 * 256 + 1 * 16 + 1) 0 = some m1 ∧
      (∀ j, m1.screen j =
        if j ∈ spriteTargets Emulator.new.ram Emulator.new.i_reg
            (Emulator.new.v_reg 0 % 64) (Emulator.new.v_reg 1 % 32) 1
        then !(Emulator.new.screen j) else Emulator.new.screen j) ∧
      (∀ e, e ∈ spriteTargets Emulator.new.ram Emulator.new.i_reg
          (Emulator.new.v_reg 0 % 64) (Emulator.new.v_reg 1 % 32) 1 ↔
        ∃ yl, yl < 1 ∧ Emulator.new.v_reg 1 % 32 + yl < 32 ∧
          ∃ xl, xl < 8 ∧
            Emulator.new.ram (Emulator.new.i_reg + yl) &&& (128 >>> xl) ≠ 0 ∧
            Emulator.new.v_reg 0 % 64 + xl < 64 ∧
            e = Emulator.new.v_reg 0 % 64 + xl +
              64 * (Emulator.new.v_reg 1 % 32 + yl)) ∧
      (m1.v_reg 0xF = 1 ↔
        ∃ e ∈ spriteTargets Emulator.new.ram Emulator.new.i_reg
            (Emulator.new.v_reg 0 % 64) (Emulator.new.v_reg 1 % 32) 1,
          Emulator.new.screen e = true) ∧
      (m1.v_reg 0xF = 0 ∨ m1.v_reg 0xF = 1) ∧
      m1.draw_completed = false ∧
      ((0 : Nat) ≠ 0xF → (1 : Nat) ≠ 0xF →
        ∃ m2, m1.execute (13 * 4096 + 0 * 256 + 1 * 16 + 1) 0 = some m2 ∧
          (∀ j, m2.screen j = Emulator.new.screen j) ∧
          ((∃ e ∈ spriteTargets Emulator.new.ram Emulator.new.i_reg
              (Emulator.new.v_reg 0 % 64) (Emulator.new.v_reg 1 % 32) 1,
              Emulator.new.screen e = false) → m2.v_reg 0xF = 1))) :=
  ⟨by decide, by decide, by decide, by decide,
    C1_draw_sprite Emulator.new 0 0 1 1 (by decide) (by decide) (by decide)
      (by decide)⟩

end Chip8
